import Mathlib

/-!
Verification of the calibration-service tag-association core.

Shallow embedding of the entity layer, the repository adapters
(in-memory, relational) and the association use cases of the
calibration service.  Instants (`datetime`) are modelled as `Nat`,
UUIDs as `Nat`, Python dicts as association lists that preserve
insertion order (matching dict iteration order).
-/

set_option linter.unusedVariables false

/-! ## Entity layer (src/entities) -/

/-- Enumerated measurement type (`entities/value_objects/calibration_type.py`). -/
inductive CalibrationType where
  | gain
  | offset
  | pressure
  | temperature
deriving Repr, DecidableEq

/-- A measurement: numeric value plus enumerated type. -/
structure Measurement where
  value : Int
  type : CalibrationType
deriving Repr, DecidableEq

/-- Tag entity (`entities/models/tag.py`): name, creation timestamp, id. -/
structure Tag where
  name : String
  created_at : Nat
  id : Nat
deriving Repr, DecidableEq

/-- The bitemporal join entity (`entities/models/calibration_tag_association.py`). -/
structure CalibrationTagAssociation where
  calibration_id : Nat
  tag_id : Nat
  archived_at : Option Nat
  created_at : Nat
  id : Nat
deriving Repr, DecidableEq

/-- Calibration entity (`entities/models/calibration.py`). -/
structure Calibration where
  measurement : Measurement
  timestamp : Nat
  username : String
  tags : List Tag
  id : Nat
deriving Repr, DecidableEq

/-- `CalibrationTagAssociation.is_archived`: the association is archived
iff `archived_at` is not `None`. -/
def CalibrationTagAssociation.is_archived (a : CalibrationTagAssociation) : Bool :=
  a.archived_at.isSome

/-- `CalibrationTagAssociation.archive`: sets `archived_at` to the current
instant unless the association is already archived.  The current instant
(`datetime.now(UTC)` in the source) is passed explicitly as `now`. -/
def CalibrationTagAssociation.archive (a : CalibrationTagAssociation) (now : Nat) :
    CalibrationTagAssociation :=
  if a.is_archived then a else { a with archived_at := some now }

/-- Constructing a `CalibrationTagAssociation` through the dataclass
defaults: `archived_at = None`, `created_at = datetime.now(UTC)` (passed
as `now`), `id = uuid4()` (passed as `fresh`). -/
def mkCalibrationTagAssociation (cid tid now fresh : Nat) : CalibrationTagAssociation :=
  { calibration_id := cid, tag_id := tid, archived_at := none,
    created_at := now, id := fresh }

/-! ## Error taxonomy (src/entities/exceptions.py, src/application/use_cases/exceptions.py) -/

/-- Adapter-boundary errors (`entities/exceptions.py`).  Each constructor is
one exception class; the carried string is the exception message. -/
inductive EntityError where
  | databaseOperationError (msg : String)
  | notFoundError (msg : String)
  | inputParseError (msg : String)
deriving Repr, DecidableEq

/-- The error kind (exception class) of an `EntityError`, ignoring the
message: `true` iff the error is the generic `DatabaseOperationError` class. -/
def EntityError.isDatabaseOperationError : EntityError → Bool
  | .databaseOperationError _ => true
  | _ => false

/-- Use-case level errors (`application/use_cases/exceptions.py`).
`tagNotFoundError` carries the ids listed in its message. -/
inductive UseCaseError where
  | calibrationNotFoundError
  | tagNotFoundError (missing : List Nat)
  | associationNotFoundError
  | validationError (msg : String)
  | runtimeError
deriving Repr, DecidableEq

/-! ## In-memory calibration repository
(`infrastructure/repositories/calibration_repository/in_memory_repository.py`)

`_calibrations : dict[UUID, Calibration]` is a list of calibrations keyed
by their `id`; `_associations : dict[UUID, dict[UUID, Assoc]]` is a list of
`(calibration_id, inner)` pairs whose inner dict is a list of associations
keyed by their `id`; `_tags : dict[UUID, Tag]` is a list of tags keyed by
their `id`. -/

structure InMemCalState where
  calibrations : List Calibration
  associations : List (Nat × List CalibrationTagAssociation)
  tags : List Tag
deriving Repr, DecidableEq

namespace InMemCalState

/-- Dict lookup `self._calibrations.get(calibration_id)`. -/
def calLookup (s : InMemCalState) (cid : Nat) : Option Calibration :=
  s.calibrations.find? (fun c => c.id == cid)

/-- Dict lookup `self._associations.get(calibration_id, {})`, yielding the
inner dict's values in insertion order. -/
def assocsFor (s : InMemCalState) (cid : Nat) : List CalibrationTagAssociation :=
  match s.associations.find? (fun p => p.1 == cid) with
  | some p => p.2
  | none => []

/-- Inner-dict store `inner[assoc.id] = assoc`: replaces an entry with the
same key in place, otherwise appends. -/
def insertAssoc (l : List CalibrationTagAssociation) (a : CalibrationTagAssociation) :
    List CalibrationTagAssociation :=
  if l.any (fun b => b.id == a.id) then
    l.map (fun b => if b.id == a.id then a else b)
  else l ++ [a]

/-- Outer-dict store `self._associations[calibration_id] = inner`. -/
def setAssocs (s : InMemCalState) (cid : Nat) (l : List CalibrationTagAssociation) :
    InMemCalState :=
  if s.associations.any (fun p => p.1 == cid) then
    { s with associations := s.associations.map (fun p => if p.1 == cid then (cid, l) else p) }
  else
    { s with associations := s.associations ++ [(cid, l)] }

end InMemCalState

/-- `InMemoryCalibrationRepository.get(id=...)`: dict lookup, returning a
copy (copies are identities in the pure model). -/
def inMemGet (s : InMemCalState) (cid : Nat) : Option Calibration :=
  s.calLookup cid

/-- `InMemoryCalibrationRepository.add_tags`: fails (returns `False`) if the
calibration is unknown; returns `True` on an empty (or `None`) list; stores
every association whose `calibration_id` matches, silently skipping the
mismatched ones, and returns whether at least one was stored. -/
def inMemAddTags (s : InMemCalState) (cid : Nat)
    (assocs : List CalibrationTagAssociation) : Bool × InMemCalState :=
  if ! s.calibrations.any (fun c => c.id == cid) then (false, s)
  else if assocs.isEmpty then (true, s)
  else
    let matching := assocs.filter (fun a => a.calibration_id == cid)
    let inner := matching.foldl InMemCalState.insertAssoc (s.assocsFor cid)
    (! matching.isEmpty, s.setAssocs cid inner)

/-- The `continue` condition of the loop in
`InMemoryCalibrationRepository.get_tag_associations_for_calibration`:
an association is skipped iff `active_at` was provided, `archived_at` is
set, and `archived_at <= active_at`. -/
def inMemActiveSkip (a : CalibrationTagAssociation) (active_at : Option Nat) : Bool :=
  match active_at, a.archived_at with
  | some t, some arch => arch ≤ t
  | _, _ => false

/-- `InMemoryCalibrationRepository.get_tag_associations_for_calibration`. -/
def inMemGetTagAssociations (s : InMemCalState) (cid : Nat) (active_at : Option Nat) :
    List CalibrationTagAssociation :=
  (s.assocsFor cid).filter (fun a => ! inMemActiveSkip a active_at)

/-- `InMemoryCalibrationRepository.update_tag_association`: replaces the
stored association whose calibration key and association id both exist,
returning the updated association, else `None` with the state unchanged. -/
def inMemUpdateTagAssociation (s : InMemCalState) (a : CalibrationTagAssociation) :
    Option CalibrationTagAssociation × InMemCalState :=
  if s.associations.any (fun p => p.1 == a.calibration_id)
      && (s.assocsFor a.calibration_id).any (fun b => b.id == a.id) then
    (some a, s.setAssocs a.calibration_id (InMemCalState.insertAssoc (s.assocsFor a.calibration_id) a))
  else (none, s)

/-- The set of currently-active tag names of a calibration, materialized by
joining the association and tag maps in process (the body of the tag filter
in `InMemoryCalibrationRepository.list_by_filters`). -/
def inMemActiveTagNames (s : InMemCalState) (cid : Nat) : List String :=
  ((s.assocsFor cid).filter (fun a => a.archived_at == none)).filterMap
    (fun a => (s.tags.find? (fun t => t.id == a.tag_id)).map (fun t => t.name))

/-- The currently-active tags of a calibration, used to populate the
returned entity's derived `tags` list. -/
def inMemActiveTags (s : InMemCalState) (cid : Nat) : List Tag :=
  ((s.assocsFor cid).filter (fun a => a.archived_at == none)).filterMap
    (fun a => s.tags.find? (fun t => t.id == a.tag_id))

/-- Stable insertion: place `c` before the first element whose timestamp
is not larger. -/
def insertByTsDesc (c : Calibration) : List Calibration → List Calibration
  | [] => [c]
  | d :: rest =>
    if d.timestamp ≤ c.timestamp then c :: d :: rest else d :: insertByTsDesc c rest

/-- Python's `results.sort(key=timestamp, reverse=True)`: stable sort by
measurement timestamp, descending (insertion sort — any stable sort
produces the same output as CPython's). -/
def sortByTimestampDesc : List Calibration → List Calibration
  | [] => []
  | c :: rest => insertByTsDesc c (sortByTimestampDesc rest)

/-- The equality filters of `list_by_filters`, shared verbatim by the
in-memory and relational adapters. -/
def calBaseMatch (username : Option String) (timestamp : Option Nat)
    (ctype : Option CalibrationType) (c : Calibration) : Bool :=
  (match username with | some u => c.username == u | none => true)
  && (match timestamp with | some ts => c.timestamp == ts | none => true)
  && (match ctype with | some ty => c.measurement.type == ty | none => true)

/-- `InMemoryCalibrationRepository.list_by_filters`: equality filters plus,
when `tags` is provided (`tags is not None`), the all-of check
`set(tags).issubset(active_tag_names)`; matching calibrations are returned
with their derived `tags` list repopulated, sorted by timestamp descending. -/
def inMemListByFilters (s : InMemCalState) (username : Option String)
    (timestamp : Option Nat) (ctype : Option CalibrationType)
    (tags : Option (List String)) : List Calibration :=
  let base := s.calibrations.filter (fun c =>
    calBaseMatch username timestamp ctype c
    && (match tags with
        | some f => f.all (fun n => (inMemActiveTagNames s c.id).contains n)
        | none => true))
  sortByTimestampDesc (base.map (fun c => { c with tags := inMemActiveTags s c.id }))

/-- `InMemoryCalibrationRepository.get_by_tag_at_timestamp`. -/
def inMemGetByTagAtTimestamp (s : InMemCalState) (tid : Nat) (timestamp : Nat)
    (username : Option String) : List Calibration :=
  let matching := s.associations.filter (fun p =>
    p.2.any (fun a =>
      a.tag_id == tid && a.created_at ≤ timestamp
        && (match a.archived_at with | none => true | some arch => timestamp < arch)))
  let results := (matching.map (fun p => p.1)).filterMap (fun cid =>
    match s.calLookup cid with
    | some c =>
      if (match username with | some u => c.username == u | none => true)
          && c.timestamp ≤ timestamp then
        some { c with tags := [] }
      else none
    | none => none)
  sortByTimestampDesc results

/-! ## Relational (SQLAlchemy) calibration repository
(`infrastructure/repositories/calibration_repository/postgres_repository.py`)

The relational state is the three tables of the schema: calibrations, tags
(unique name) and the association join table, each a list of rows. -/

structure PgState where
  calibrations : List Calibration
  tags : List Tag
  assocRows : List CalibrationTagAssociation
deriving Repr, DecidableEq

/-- The `WHERE` clause of
`SqlAlchemyCalibrationRepository.get_tag_associations_for_calibration`:
rows of the given calibration, and — only when `active_at` is provided —
`archived_at IS NULL OR archived_at > active_at`. -/
def pgGetTagAssociations (s : PgState) (cid : Nat) (active_at : Option Nat) :
    List CalibrationTagAssociation :=
  s.assocRows.filter (fun a =>
    a.calibration_id == cid
    && (match active_at, a.archived_at with
        | some t, some arch => t < arch
        | _, _ => true))

/-- `SqlAlchemyCalibrationRepository.add_tags`: returns `True` on an empty
(or `None`) list; inserts every association whose `calibration_id` matches,
silently skipping mismatched ones; returns `True` even when every
association was skipped. -/
def pgAddTags (s : PgState) (cid : Nat)
    (assocs : List CalibrationTagAssociation) : Bool × PgState :=
  if assocs.isEmpty then (true, s)
  else
    let matching := assocs.filter (fun a => a.calibration_id == cid)
    if matching.isEmpty then (true, s)
    else (true, { s with assocRows := s.assocRows ++ matching })

/-- `SqlAlchemyCalibrationRepository.update_tag_association`: looks the row
up by primary key, copies `archived_at` from the argument, and persists. -/
def pgUpdateTagAssociation (s : PgState) (a : CalibrationTagAssociation) :
    Option CalibrationTagAssociation × PgState :=
  match s.assocRows.find? (fun b => b.id == a.id) with
  | none => (none, s)
  | some b =>
    let upd := { b with archived_at := a.archived_at }
    (some upd,
     { s with assocRows := s.assocRows.map (fun c => if c.id == a.id then upd else c) })

/-- `SqlAlchemyCalibrationRepository.list_by_filters`: equality filters
plus, when `tags` is truthy (non-empty), a name→id subquery followed by an
`EXISTS` against associations with `tag_id IN tag_ids AND archived_at IS
NULL`; empty result when no tag name matches; ordered by timestamp
descending. -/
def pgListByFilters (s : PgState) (username : Option String)
    (timestamp : Option Nat) (ctype : Option CalibrationType)
    (tags : Option (List String)) : List Calibration :=
  let tagNames := match tags with | some f => f | none => []
  if tagNames.isEmpty then
    sortByTimestampDesc (s.calibrations.filter (calBaseMatch username timestamp ctype))
  else
    let tag_ids := (s.tags.filter (fun t => tagNames.contains t.name)).map (fun t => t.id)
    if tag_ids.isEmpty then []
    else
      sortByTimestampDesc (s.calibrations.filter (fun c =>
        calBaseMatch username timestamp ctype c
        && s.assocRows.any (fun a =>
            a.calibration_id == c.id && tag_ids.contains a.tag_id
              && a.archived_at == none)))

/-- `SqlAlchemyCalibrationRepository.get_by_tag_at_timestamp`: join against
associations with `tag_id = tid AND created_at <= T AND (archived_at IS
NULL OR archived_at > T)`, optional username filter, ordered by timestamp
descending. -/
def pgGetByTagAtTimestamp (s : PgState) (tid : Nat) (timestamp : Nat)
    (username : Option String) : List Calibration :=
  sortByTimestampDesc (s.calibrations.filter (fun c =>
    s.assocRows.any (fun a =>
      a.calibration_id == c.id && a.tag_id == tid && a.created_at ≤ timestamp
        && (match a.archived_at with | none => true | some arch => timestamp < arch))
    && (match username with | some u => c.username == u | none => true)))

/-! ## Tag repositories (`infrastructure/repositories/tag_repository`) -/

/-- `MockTagRepository` state: `_tags_by_id` plus the secondary
`_tags_by_name` index. -/
structure MockTagState where
  tagsById : List Tag
  tagsByName : List (String × Tag)
deriving Repr, DecidableEq

/-- `MockTagRepository.get_by_id`. -/
def mockGetTagById (s : MockTagState) (tid : Nat) : Option Tag :=
  s.tagsById.find? (fun t => t.id == tid)

/-- `MockTagRepository.get_by_name`. -/
def mockGetTagByName (s : MockTagState) (name : String) : Option Tag :=
  (s.tagsByName.find? (fun p => p.1 == name)).map (fun p => p.2)

/-- `MockTagRepository.get_by_ids`: iterates the requested ids in order,
collecting those found in `_tags_by_id`. -/
def mockGetTagsByIds (s : MockTagState) (ids : List Nat) : List Tag :=
  ids.filterMap (fun i => s.tagsById.find? (fun t => t.id == i))

/-- `MockTagRepository.add`: raises `DatabaseOperationError` when the name
is already present in `_tags_by_name`, else stores the tag in both dicts
and returns it. -/
def mockTagAdd (s : MockTagState) (tag : Tag) : Except EntityError (Tag × MockTagState) :=
  if s.tagsByName.any (fun p => p.1 == tag.name) then
    .error (.databaseOperationError ("Tag name \x27" ++ tag.name ++ "\x27 already exists."))
  else
    .ok (tag, { tagsById := s.tagsById ++ [tag],
                tagsByName := s.tagsByName ++ [(tag.name, tag)] })

/-- `SqlAlchemyTagRepository.add`: an insert that violates the unique name
constraint raises an `IntegrityError` naming `tags.name`; the adapter
inspects the violation string and re-raises `DatabaseOperationError` with
a name-specific message; a name not yet present is inserted and returned. -/
def pgTagAdd (s : PgState) (tag : Tag) : Except EntityError (Tag × PgState) :=
  if s.tags.any (fun t => t.name == tag.name) then
    .error (.databaseOperationError ("Tag name \x27" ++ tag.name ++ "\x27 already exists."))
  else
    .ok (tag, { s with tags := s.tags ++ [tag] })

/-! ## Association use cases (`application/use_cases/tags`)

Each use case is composed with the in-memory calibration repository and the
mock tag repository; `SysState` bundles the two stores. -/

structure SysState where
  cal : InMemCalState
  tag : MockTagState
deriving Repr, DecidableEq

/-- Output of `AddTagToCalibrationUseCase`. -/
structure AddTagToCalibrationOutput where
  association : CalibrationTagAssociation
deriving Repr, DecidableEq

/-- `AddTagToCalibrationUseCase.execute`: validate calibration and tag,
return the first existing active association for the pair if any, else
create (at instant `now`, with fresh id `fresh`) and persist exactly one
new association. -/
def addTagToCalibration (s : SysState) (cid tid now fresh : Nat) :
    Except UseCaseError AddTagToCalibrationOutput × SysState :=
  match s.cal.calLookup cid with
  | none => (.error .calibrationNotFoundError, s)
  | some _ =>
    match mockGetTagById s.tag tid with
    | none => (.error (.tagNotFoundError [tid]), s)
    | some _ =>
      let existing := inMemGetTagAssociations s.cal cid none
      match existing.find? (fun a => a.tag_id == tid && ! a.is_archived) with
      | some a => (.ok ⟨a⟩, s)
      | none =>
        let newAssoc := mkCalibrationTagAssociation cid tid now fresh
        let r := inMemAddTags s.cal cid [newAssoc]
        (.ok ⟨newAssoc⟩, { s with cal := r.2 })

/-- Output of `RemoveTagFromCalibrationUseCase`. -/
structure RemoveTagFromCalibrationOutput where
  archived_association : CalibrationTagAssociation
deriving Repr, DecidableEq

/-- `RemoveTagFromCalibrationUseCase.execute`: validate calibration and
tag, fetch the associations active at `now`, find the first active one for
the pair (`AssociationNotFoundError` if none), archive it and persist the
update (`RuntimeError` if the repository reports the association gone). -/
def removeTagFromCalibration (s : SysState) (cid tid now : Nat) :
    Except UseCaseError RemoveTagFromCalibrationOutput × SysState :=
  match s.cal.calLookup cid with
  | none => (.error .calibrationNotFoundError, s)
  | some _ =>
    match mockGetTagById s.tag tid with
    | none => (.error (.tagNotFoundError [tid]), s)
    | some _ =>
      let actives := inMemGetTagAssociations s.cal cid (some now)
      match actives.find? (fun a => a.tag_id == tid && ! a.is_archived) with
      | none => (.error .associationNotFoundError, s)
      | some a =>
        let archived := a.archive now
        let r := inMemUpdateTagAssociation s.cal archived
        match r.1 with
        | none => (.error .runtimeError, { s with cal := r.2 })
        | some upd => (.ok ⟨upd⟩, { s with cal := r.2 })

/-- Output of `AddBulkTagsToCalibrationUseCase`. -/
structure AddBulkTagsOutput where
  added_associations : List CalibrationTagAssociation
  skipped_tag_ids : List Nat
deriving Repr, DecidableEq

/-- `AddBulkTagsToCalibrationUseCase.__call__`: deduplicate the requested
ids, reject an empty list, validate the calibration, validate every tag id
(raising one `TagNotFoundError` listing all missing ids), split the ids
into already-active (skipped) and new, and persist the new associations in
one `add_tags` batch.  `fresh` supplies the `uuid4` of the association
created for each new tag id. -/
def addBulkTagsToCalibration (s : SysState) (cid : Nat) (tagIds : List Nat)
    (now : Nat) (fresh : Nat → Nat) :
    Except UseCaseError AddBulkTagsOutput × SysState :=
  let dedupIds := tagIds.dedup
  if dedupIds.isEmpty then
    (.error (.validationError "List of tag IDs cannot be empty."), s)
  else
    match s.cal.calLookup cid with
    | none => (.error .calibrationNotFoundError, s)
    | some _ =>
      let found := mockGetTagsByIds s.tag dedupIds
      let foundIds := found.map (fun t => t.id)
      let notFound := dedupIds.filter (fun x => ! foundIds.contains x)
      if ! notFound.isEmpty then (.error (.tagNotFoundError notFound), s)
      else
        let current := inMemGetTagAssociations s.cal cid none
        let activeIds := (current.filter (fun a => ! a.is_archived)).map
          (fun a => a.tag_id)
        let newIds := dedupIds.filter (fun x => ! activeIds.contains x)
        let skipped := dedupIds.filter (fun x => activeIds.contains x)
        if newIds.isEmpty then (.ok ⟨[], skipped⟩, s)
        else
          let newAssocs := newIds.map
            (fun t => mkCalibrationTagAssociation cid t now (fresh t))
          let r := inMemAddTags s.cal cid newAssocs
          (.ok ⟨newAssocs, skipped⟩, { s with cal := r.2 })

/-! ## Spec-side predicates, for comparison with the adapters -/

/-- The active-at-T predicate exactly as the specification words it:
`created_at ≤ T AND (archived_at IS NULL OR archived_at > T)`. -/
def specActiveAt (a : CalibrationTagAssociation) (t : Nat) : Prop :=
  a.created_at ≤ t ∧ (a.archived_at = none ∨ ∃ arch, a.archived_at = some arch ∧ t < arch)

instance (a : CalibrationTagAssociation) (t : Nat) : Decidable (specActiveAt a t) := by
  unfold specActiveAt
  exact inferInstance

/-- The entity invariant stated by the specification: when `archived_at`
is present it is `≥ created_at`. -/
def assocInvariant (a : CalibrationTagAssociation) : Prop :=
  ∀ arch, a.archived_at = some arch → a.created_at ≤ arch

/-! ## Concrete states used as counterexamples and witnesses -/

/-- An association created at instant 10, never archived. -/
def cexAssoc : CalibrationTagAssociation :=
  { calibration_id := 1, tag_id := 2, archived_at := none, created_at := 10, id := 3 }

/-- In-memory store holding only `cexAssoc` under calibration 1. -/
def cexC1State : InMemCalState :=
  { calibrations := [], associations := [(1, [cexAssoc])], tags := [] }

/-- Relational store holding only `cexAssoc`. -/
def cexC1Pg : PgState :=
  { calibrations := [], tags := [], assocRows := [cexAssoc] }

/-- A mock tag store already holding a tag named `A`. -/
def cexTagStore : MockTagState :=
  { tagsById := [{ name := "A", created_at := 0, id := 1 }],
    tagsByName := [("A", { name := "A", created_at := 0, id := 1 })] }

/-- A relational store whose tags table already holds a tag named `A`. -/
def cexPgTagStore : PgState :=
  { calibrations := [], tags := [{ name := "A", created_at := 0, id := 1 }], assocRows := [] }

/-- A calibration used by the concrete stores below. -/
def cexCal : Calibration :=
  { measurement := { value := 0, type := .gain }, timestamp := 0, username := "u",
    tags := [], id := 1 }

/-- In-memory store holding calibration 1 and no associations. -/
def cexC10State : InMemCalState :=
  { calibrations := [cexCal], associations := [], tags := [] }

/-- Relational store holding calibration 1 and no associations. -/
def cexC10Pg : PgState :=
  { calibrations := [cexCal], tags := [], assocRows := [] }

/-- Tag named `A` with id 1. -/
def cexTagA : Tag := { name := "A", created_at := 0, id := 1 }

/-- Tag named `B` with id 2. -/
def cexTagB : Tag := { name := "B", created_at := 0, id := 2 }

/-- Calibration 10, owned by `u`. -/
def cexCalX : Calibration :=
  { measurement := { value := 0, type := .gain }, timestamp := 0, username := "u",
    tags := [], id := 10 }

/-- Relational store: calibration 10 has only tag `A` currently active;
tag `B` exists but is not associated. -/
def cexC2Pg : PgState :=
  { calibrations := [cexCalX], tags := [cexTagA, cexTagB],
    assocRows := [{ calibration_id := 10, tag_id := 1, archived_at := none,
                    created_at := 0, id := 5 }] }

/-- The same data in the in-memory store. -/
def cexC2Mem : InMemCalState :=
  { calibrations := [cexCalX],
    associations := [(10, [{ calibration_id := 10, tag_id := 1, archived_at := none,
                             created_at := 0, id := 5 }])],
    tags := [cexTagA, cexTagB] }

/-- Tag named `T` with id 2, used by the use-case witnesses. -/
def wTag2 : Tag := { name := "T", created_at := 0, id := 2 }

/-- Tag named `U` with id 3, used by the use-case witnesses. -/
def wTag3 : Tag := { name := "U", created_at := 0, id := 3 }

/-- Calibration 1, used by the use-case witnesses. -/
def wCal1 : Calibration :=
  { measurement := { value := 0, type := .gain }, timestamp := 0, username := "u",
    tags := [], id := 1 }

/-- System state for the attach-tag witness: calibration 1 and tag 2 exist,
and the only association of the pair is archived. -/
def sysC4 : SysState :=
  { cal := { calibrations := [wCal1],
             associations := [(1, [{ calibration_id := 1, tag_id := 2,
                                     archived_at := some 4, created_at := 0, id := 30 }])],
             tags := [wTag2] },
    tag := { tagsById := [wTag2], tagsByName := [("T", wTag2)] } }

/-- System state for the detach-tag witness: calibration 1 and tag 2 exist,
with one active association of the pair. -/
def sysC5 : SysState :=
  { cal := { calibrations := [wCal1],
             associations := [(1, [{ calibration_id := 1, tag_id := 2,
                                     archived_at := none, created_at := 0, id := 31 }])],
             tags := [wTag2] },
    tag := { tagsById := [wTag2], tagsByName := [("T", wTag2)] } }

/-- System state for the bulk-attach witness: calibration 1, tags 2 and 3
exist, tag 2 already actively associated. -/
def sysC3 : SysState :=
  { cal := { calibrations := [wCal1],
             associations := [(1, [{ calibration_id := 1, tag_id := 2,
                                     archived_at := none, created_at := 0, id := 31 }])],
             tags := [wTag2, wTag3] },
    tag := { tagsById := [wTag2, wTag3], tagsByName := [("T", wTag2), ("U", wTag3)] } }

/-! ## Helper lemmas -/

/-- Stable insertion preserves membership. -/
theorem mem_insertByTsDesc (c a : Calibration) (l : List Calibration) :
    a ∈ insertByTsDesc c l ↔ a = c ∨ a ∈ l := by
  induction l with
  | nil => simp [insertByTsDesc]
  | cons d rest ih =>
    unfold insertByTsDesc
    by_cases h : d.timestamp ≤ c.timestamp
    · simp [h]
    · simp only [if_neg h, List.mem_cons, ih]
      tauto

/-- The descending timestamp sort preserves membership. -/
theorem mem_sortByTimestampDesc (a : Calibration) (l : List Calibration) :
    a ∈ sortByTimestampDesc l ↔ a ∈ l := by
  induction l with
  | nil => simp [sortByTimestampDesc]
  | cons c rest ih =>
    unfold sortByTimestampDesc
    rw [mem_insertByTsDesc, ih, List.mem_cons]

/-- Positive reading of the in-memory skip condition at a provided instant. -/
theorem inMemActiveSkip_false_iff (a : CalibrationTagAssociation) (t : Nat) :
    (! inMemActiveSkip a (some t)) = true ↔
      (a.archived_at = none ∨ ∃ arch, a.archived_at = some arch ∧ t < arch) := by
  unfold inMemActiveSkip
  cases h : a.archived_at with
  | none => simp
  | some arch => simp [h]
    
/-- Positive reading of the relational `WHERE` clause at a provided instant. -/
theorem pgArchMatch_iff (a : CalibrationTagAssociation) (t : Nat) :
    ((match some t, a.archived_at with
      | some t, some arch => decide (t < arch)
      | _, _ => true) = true) ↔
      (a.archived_at = none ∨ ∃ arch, a.archived_at = some arch ∧ t < arch) := by
  cases h : a.archived_at with
  | none => simp
  | some arch => simp [h]

/-! ## Claim theorems -/

/-- C1 (counterexample): an association created at instant 10 and never
archived is returned by `getTagAssociations(C, activeAt := 5)` in both
adapters, although it does not satisfy the spec predicate
`created_at ≤ T AND (archived_at IS NULL OR archived_at > T)` at `T = 5` —
the adapters do not apply the `created_at ≤ T` conjunct. -/
theorem getTagAssociations_ignores_created_at :
    inMemGetTagAssociations cexC1State 1 (some 5) = [cexAssoc]
    ∧ pgGetTagAssociations cexC1Pg 1 (some 5) = [cexAssoc]
    ∧ ¬ specActiveAt cexAssoc 5 := by
  refine ⟨rfl, rfl, ?_⟩
  decide

/-- C1 (amended): with `activeAt = T` provided, both the in-memory and the
relational adapter return exactly the stored associations of the
calibration satisfying `archived_at IS NULL OR archived_at > T`; the
`created_at ≤ T` conjunct of the spec predicate is not applied. -/
theorem getTagAssociations_active_at_spec :
    ∀ (s : InMemCalState) (p : PgState) (cid t : Nat) (a : CalibrationTagAssociation),
      (a ∈ inMemGetTagAssociations s cid (some t) ↔
        a ∈ s.assocsFor cid
          ∧ (a.archived_at = none ∨ ∃ arch, a.archived_at = some arch ∧ t < arch))
      ∧ (a ∈ pgGetTagAssociations p cid (some t) ↔
        a ∈ p.assocRows ∧ a.calibration_id = cid
          ∧ (a.archived_at = none ∨ ∃ arch, a.archived_at = some arch ∧ t < arch)) := by
  intro s p cid t a
  constructor
  · rw [inMemGetTagAssociations, List.mem_filter, inMemActiveSkip_false_iff]
  · rw [pgGetTagAssociations, List.mem_filter]
    cases h : a.archived_at with
    | none => simp [h, and_assoc]
    | some arch => simp [h, and_assoc]

/-- C6: bulk-attach with an empty tag-id list fails with `ValidationError`
before any repository call: for every store the result is the same
validation error and the store is returned unchanged. -/
theorem bulk_attach_empty_list_validation_error :
    ∀ (s : SysState) (cid now : Nat) (fresh : Nat → Nat),
      addBulkTagsToCalibration s cid [] now fresh =
        (.error (.validationError "List of tag IDs cannot be empty."), s) := by
  intro s cid now fresh
  simp [addBulkTagsToCalibration]

/-- C7 (counterexample): adding a tag whose name `A` already exists makes
both tag-repository adapters fail with the `DatabaseOperationError` class —
the very class used for generic storage failures — so the name conflict is
not distinguished from a generic database-operation failure by error kind,
only by message. -/
theorem tag_add_conflict_is_generic_kind :
    mockTagAdd cexTagStore { name := "A", created_at := 5, id := 7 } =
      .error (.databaseOperationError "Tag name \x27A\x27 already exists.")
    ∧ pgTagAdd cexPgTagStore { name := "A", created_at := 5, id := 7 } =
      .error (.databaseOperationError "Tag name \x27A\x27 already exists.")
    ∧ (EntityError.databaseOperationError "Tag name \x27A\x27 already exists."
        ).isDatabaseOperationError = true := by
  exact ⟨rfl, rfl, rfl⟩

/-- C7 (amended): on a duplicate name, both tag-repository adapters fail
with `DatabaseOperationError` carrying the name-specific conflict message
(distinguished from generic failures only by message, not by error class),
and a successful `add` returns exactly the tag that was passed in — never a
different existing tag. -/
theorem tag_add_name_conflict_behavior (s : MockTagState) (p : PgState) (tag : Tag) :
    ((s.tagsByName.any (fun q => q.1 == tag.name)) = true →
      mockTagAdd s tag =
        .error (.databaseOperationError ("Tag name \x27" ++ tag.name ++ "\x27 already exists.")))
    ∧ ((p.tags.any (fun t => t.name == tag.name)) = true →
      pgTagAdd p tag =
        .error (.databaseOperationError ("Tag name \x27" ++ tag.name ++ "\x27 already exists.")))
    ∧ (∀ t' s', mockTagAdd s tag = .ok (t', s') → t' = tag)
    ∧ (∀ t' p', pgTagAdd p tag = .ok (t', p') → t' = tag) := by
  refine ⟨fun h => ?_, fun h => ?_, fun t' s' h => ?_, fun t' p' h => ?_⟩
  · simp [mockTagAdd, h]
  · simp [pgTagAdd, h]
  · unfold mockTagAdd at h
    by_cases hc : (s.tagsByName.any (fun q => q.1 == tag.name)) = true
    · simp [hc] at h
    · simp [hc] at h
      exact h.1.symm
  · unfold pgTagAdd at h
    by_cases hc : (p.tags.any (fun t => t.name == tag.name)) = true
    · simp [hc] at h
    · simp [hc] at h
      exact h.1.symm

/-- C7 (witness): the amended theorem applied to the concrete stores that
already hold a tag named `A`. -/
theorem tag_add_name_conflict_behavior_witness :
    (cexTagStore.tagsByName.any (fun q => q.1 == "A")) = true
    ∧ mockTagAdd cexTagStore { name := "A", created_at := 9, id := 8 } =
        .error (.databaseOperationError "Tag name \x27A\x27 already exists.") :=
  ⟨by decide,
   (tag_add_name_conflict_behavior cexTagStore cexPgTagStore
      { name := "A", created_at := 9, id := 8 }).1 (by decide)⟩

/-- C8: the invariant `archived_at`, when present, is `≥ created_at` holds
of every association built through the constructor defaults, and is
preserved by `archive` whenever the archiving instant is not earlier than
the creation instant (as is the case for every archive performed by the
system, which archives at the current instant). -/
theorem association_invariant_preserved :
    (∀ cid tid now fresh, assocInvariant (mkCalibrationTagAssociation cid tid now fresh))
    ∧ ∀ (a : CalibrationTagAssociation) (now : Nat),
        assocInvariant a → a.created_at ≤ now → assocInvariant (a.archive now) := by
  constructor
  · intro cid tid now fresh arch h
    simp [mkCalibrationTagAssociation] at h
  · intro a now hinv hle arch h
    by_cases hb : a.is_archived
    · rw [CalibrationTagAssociation.archive, if_pos hb] at h ⊢
      exact hinv arch h
    · rw [CalibrationTagAssociation.archive, if_neg hb] at h ⊢
      simp at h
      show a.created_at ≤ arch
      omega

/-- C8 (witness): a freshly constructed association satisfies the
invariant, and archiving it at a later instant preserves it. -/
theorem association_invariant_preserved_witness :
    assocInvariant (mkCalibrationTagAssociation 1 2 3 4)
    ∧ ((mkCalibrationTagAssociation 1 2 3 4).created_at ≤ 5
      ∧ assocInvariant ((mkCalibrationTagAssociation 1 2 3 4).archive 5)) :=
  ⟨association_invariant_preserved.1 1 2 3 4,
   by decide,
   association_invariant_preserved.2 (mkCalibrationTagAssociation 1 2 3 4) 5
     (association_invariant_preserved.1 1 2 3 4) (by decide)⟩

/-- C9: archiving is idempotent in `archived_at`: an association whose
`archived_at` is already set is left unchanged by `archive`, and a second
`archive` never changes the `archived_at` produced by a first. -/
theorem archive_idempotent :
    (∀ (a : CalibrationTagAssociation) (t n : Nat),
      a.archived_at = some t → a.archive n = a)
    ∧ ∀ (a : CalibrationTagAssociation) (n m : Nat),
      ((a.archive n).archive m).archived_at = (a.archive n).archived_at := by
  constructor
  · intro a t n h
    simp [CalibrationTagAssociation.archive, CalibrationTagAssociation.is_archived, h]
  · intro a n m
    unfold CalibrationTagAssociation.archive CalibrationTagAssociation.is_archived
    cases h : a.archived_at with
    | none => simp [h]
    | some t => simp [h]

/-- C9 (witness): re-archiving the concrete association archived at 5
leaves it unchanged. -/
theorem archive_idempotent_witness :
    let a : CalibrationTagAssociation :=
      { calibration_id := 1, tag_id := 2, archived_at := some 5, created_at := 0, id := 3 }
    a.archived_at = some 5 ∧ a.archive 9 = a :=
  ⟨rfl, archive_idempotent.1 _ 5 9 rfl⟩

/-- Replacing every pair keyed `cid` in an outer dict makes the first
`cid` lookup return the replacement. -/
theorem find?_map_replace (cid : Nat) (l : List CalibrationTagAssociation) :
    ∀ ps : List (Nat × List CalibrationTagAssociation),
      ps.any (fun p => p.1 == cid) = true →
      (ps.map (fun p => if p.1 == cid then (cid, l) else p)).find? (fun p => p.1 == cid)
        = some (cid, l) := by
  intro ps
  induction ps with
  | nil => intro h; simp at h
  | cons q rest ih =>
    intro h
    by_cases hq : (q.1 == cid) = true
    · have hq' : q.1 = cid := by simpa using hq
      simp [List.map_cons, List.find?_cons, hq']
    · simp only [List.any_cons, hq, Bool.false_or] at h
      simp only [List.map_cons, hq, if_false, List.find?_cons, Bool.false_eq_true]
      exact ih h

/-- Storing an inner association dict and reading it back yields the
stored dict. -/
theorem setAssocs_assocsFor (s : InMemCalState) (cid : Nat)
    (l : List CalibrationTagAssociation) :
    (s.setAssocs cid l).assocsFor cid = l := by
  unfold InMemCalState.setAssocs InMemCalState.assocsFor
  by_cases h : s.associations.any (fun p => p.1 == cid)
  · rw [if_pos h]
    simp only [find?_map_replace cid l s.associations h]
  · rw [if_neg h]
    simp only
    rw [List.find?_append]
    have hn : s.associations.find? (fun p => p.1 == cid) = none := by
      rw [List.find?_eq_none]
      intro x hx hpx
      exact h (List.any_eq_true.mpr ⟨x, hx, hpx⟩)
    simp [hn]

/-- `setAssocs` does not touch the calibration or tag maps. -/
theorem setAssocs_calibrations (s : InMemCalState) (cid : Nat)
    (l : List CalibrationTagAssociation) :
    (s.setAssocs cid l).calibrations = s.calibrations
    ∧ (s.setAssocs cid l).tags = s.tags := by
  unfold InMemCalState.setAssocs
  by_cases h : s.associations.any (fun p => p.1 == cid) <;> simp [h]

/-- Members of an inner-dict insertion come from the old dict or are the
inserted association. -/
theorem mem_insertAssoc (l : List CalibrationTagAssociation)
    (x a : CalibrationTagAssociation) (h : a ∈ InMemCalState.insertAssoc l x) :
    a ∈ l ∨ a = x := by
  unfold InMemCalState.insertAssoc at h
  by_cases hc : l.any (fun b => b.id == x.id)
  · rw [if_pos hc] at h
    rcases List.mem_map.mp h with ⟨b, hb, hba⟩
    by_cases hbx : b.id == x.id
    · right; rw [if_pos hbx] at hba; exact hba.symm
    · left; rw [if_neg hbx] at hba; exact hba ▸ hb
  · rw [if_neg hc] at h
    rcases List.mem_append.mp h with hl | hr
    · exact Or.inl hl
    · exact Or.inr (List.mem_singleton.mp hr)

/-- Members of a folded sequence of inner-dict insertions come from the
initial dict or from the inserted list. -/
theorem mem_foldl_insertAssoc (xs : List CalibrationTagAssociation) :
    ∀ (l : List CalibrationTagAssociation) (a : CalibrationTagAssociation),
      a ∈ xs.foldl InMemCalState.insertAssoc l → a ∈ l ∨ a ∈ xs := by
  induction xs with
  | nil => intro l a h; exact Or.inl h
  | cons x rest ih =>
    intro l a h
    rcases ih (InMemCalState.insertAssoc l x) a h with h1 | h2
    · rcases mem_insertAssoc l x a h1 with hl | hx
      · exact Or.inl hl
      · exact Or.inr (hx ▸ List.mem_cons_self x rest)
    · exact Or.inr (List.mem_cons_of_mem x h2)

/-- A filtered list is empty exactly when no element satisfies the
predicate. -/
theorem filter_isEmpty_eq_not_any {α : Type} (l : List α) (p : α → Bool) :
    (l.filter p).isEmpty = ! l.any p := by
  induction l with
  | nil => rfl
  | cons x rest ih =>
    by_cases hx : p x <;> simp [List.filter_cons, hx, ih]

/-- C10 (counterexample): with calibration 1 present and an empty
association list, the in-memory adapter returns `True` (not `False`, even
though nothing was persisted), and the relational adapter also returns
`True` — the two success signals agree on the empty input. -/
theorem add_tags_empty_list_signals_agree :
    inMemAddTags cexC10State 1 [] = (true, cexC10State)
    ∧ pgAddTags cexC10Pg 1 [] = (true, cexC10Pg) := by
  constructor <;> rfl

/-- C10 (amended): in both adapters every association whose
`calibration_id` differs from the argument is silently skipped (nothing
mismatched is ever persisted and no error is raised — both operations
total, returning a `Bool`); the in-memory adapter returns `False` when the
calibration is unknown or when the list is non-empty and every association
was skipped, but returns `True` on an empty list; the relational adapter
always returns `True`.  Hence the success signals disagree on a non-empty
fully-skipped list but agree on an empty one. -/
theorem add_tags_skip_and_success_signals (s : InMemCalState) (p : PgState)
    (cid : Nat) (assocs : List CalibrationTagAssociation) :
    (∀ a, a ∈ (inMemAddTags s cid assocs).2.assocsFor cid →
        a ∈ s.assocsFor cid ∨ (a ∈ assocs ∧ a.calibration_id = cid))
    ∧ (∀ a, a ∈ (pgAddTags p cid assocs).2.assocRows ↔
        a ∈ p.assocRows ∨ (a ∈ assocs ∧ a.calibration_id = cid))
    ∧ ((s.calibrations.any (fun c => c.id == cid)) = false →
        (inMemAddTags s cid assocs).1 = false)
    ∧ ((s.calibrations.any (fun c => c.id == cid)) = true →
        (inMemAddTags s cid assocs).1 =
          (assocs.isEmpty || assocs.any (fun a => a.calibration_id == cid)))
    ∧ (pgAddTags p cid assocs).1 = true := by
  refine ⟨?_, ?_, ?_, ?_, ?_⟩
  · intro a ha
    unfold inMemAddTags at ha
    by_cases hc : s.calibrations.any (fun c => c.id == cid)
    · rw [hc] at ha
      simp only [Bool.not_true, Bool.false_eq_true, if_false] at ha
      by_cases he : assocs.isEmpty
      · rw [if_pos he] at ha; exact Or.inl ha
      · rw [if_neg he] at ha
        simp only at ha
        rw [setAssocs_assocsFor] at ha
        rcases mem_foldl_insertAssoc _ _ _ ha with h1 | h2
        · exact Or.inl h1
        · rcases List.mem_filter.mp h2 with ⟨hmem, hbeq⟩
          exact Or.inr ⟨hmem, by simpa using hbeq⟩
    · simp only [Bool.not_eq_true] at hc
      rw [hc] at ha
      simp only [Bool.not_false, if_true] at ha
      exact Or.inl ha
  · intro a
    unfold pgAddTags
    by_cases he : assocs.isEmpty
    · rw [if_pos he]
      rw [List.isEmpty_iff] at he
      subst he
      simp
    · rw [if_neg he]
      simp only
      by_cases hm : (assocs.filter (fun a => a.calibration_id == cid)).isEmpty
      · rw [if_pos hm]
        rw [List.isEmpty_iff, List.filter_eq_nil_iff] at hm
        simp only
        constructor
        · exact Or.inl
        · rintro (h | ⟨hmem, hcid⟩)
          · exact h
          · exact absurd (by simpa using hcid) (hm a hmem)
      · rw [if_neg hm]
        simp only [List.mem_append, List.mem_filter]
        constructor
        · rintro (h | ⟨hmem, hcid⟩)
          · exact Or.inl h
          · exact Or.inr ⟨hmem, by simpa using hcid⟩
        · rintro (h | ⟨hmem, hcid⟩)
          · exact Or.inl h
          · exact Or.inr ⟨hmem, by simpa using hcid⟩
  · intro h
    unfold inMemAddTags
    rw [h]
    rfl
  · intro h
    unfold inMemAddTags
    rw [h]
    simp only [Bool.not_true, Bool.false_eq_true, if_false]
    by_cases he : assocs.isEmpty
    · rw [if_pos he, he]
      simp
    · rw [if_neg he]
      simp only
      rw [filter_isEmpty_eq_not_any, Bool.not_not]
      simp [he]
  · unfold pgAddTags
    by_cases he : assocs.isEmpty
    · rw [if_pos he]
    · rw [if_neg he]
      simp only
      by_cases hm : (assocs.filter (fun a => a.calibration_id == cid)).isEmpty
      · rw [if_pos hm]
      · rw [if_neg hm]

/-- C10 (witness): the amended theorem applied to the concrete stores
holding calibration 1, with a list containing one mismatched association:
the in-memory signal is `False`, the relational one `True`. -/
theorem add_tags_skip_and_success_signals_witness :
    (cexC10State.calibrations.any (fun c => c.id == 1)) = true
    ∧ (inMemAddTags cexC10State 1 [mkCalibrationTagAssociation 2 2 0 9]).1 = false
    ∧ (pgAddTags cexC10Pg 1 [mkCalibrationTagAssociation 2 2 0 9]).1 = true := by
  refine ⟨by decide, ?_, (add_tags_skip_and_success_signals cexC10State cexC10Pg 1
    [mkCalibrationTagAssociation 2 2 0 9]).2.2.2.2⟩
  rw [(add_tags_skip_and_success_signals cexC10State cexC10Pg 1
    [mkCalibrationTagAssociation 2 2 0 9]).2.2.2.1 (by decide)]
  decide

/-- Membership in the name→id subquery result of the relational
`list_by_filters`. -/
theorem mem_tagIdsOfNames (tags : List Tag) (f : List String) (x : Nat) :
    (x ∈ (tags.filter (fun t => f.contains t.name)).map (fun t => t.id)) ↔
      ∃ t ∈ tags, t.name ∈ f ∧ t.id = x := by
  simp [List.mem_map, List.mem_filter]
  tauto

/-- C2 (counterexample): calibration 10 has only tag `A` active, tag `B`
exists unassociated; filtering by `tags=["A","B"]` returns calibration 10
from the relational adapter even though it lacks an active `B`
association, while the in-memory adapter excludes it. -/
theorem list_by_filters_any_of_vs_all_of :
    (pgListByFilters cexC2Pg none none none (some ["A", "B"])).map (fun c => c.id) = [10]
    ∧ inMemListByFilters cexC2Mem none none none (some ["A", "B"]) = []
    ∧ ¬ ∃ t ∈ cexC2Pg.tags, t.name = "B" ∧ ∃ a ∈ cexC2Pg.assocRows,
        a.calibration_id = 10 ∧ a.tag_id = t.id ∧ a.archived_at = none := by
  refine ⟨rfl, rfl, ?_⟩
  decide

/-- C2 (amended): with a non-empty tag-name filter F, the in-memory
adapter lists a calibration iff it passes the equality filters and *every*
name of F is among its currently-active tag names (all-of); the relational
adapter lists a calibration iff it passes the equality filters and *some*
tag named in F has a currently-active (archived_at null) association with
it (any-of) — and it returns nothing when no name of F matches an existing
tag.  The two adapters therefore disagree on calibrations carrying only
part of F. -/
theorem list_by_filters_tag_semantics (s : InMemCalState) (p : PgState)
    (username : Option String) (timestamp : Option Nat) (ctype : Option CalibrationType)
    (f : List String) (hf : f ≠ []) :
    (∀ cid, (∃ c ∈ inMemListByFilters s username timestamp ctype (some f), c.id = cid) ↔
      ∃ c ∈ s.calibrations, c.id = cid ∧ calBaseMatch username timestamp ctype c = true
        ∧ ∀ n ∈ f, n ∈ inMemActiveTagNames s c.id)
    ∧ (∀ cid, (∃ c ∈ pgListByFilters p username timestamp ctype (some f), c.id = cid) ↔
      ∃ c ∈ p.calibrations, c.id = cid ∧ calBaseMatch username timestamp ctype c = true
        ∧ ∃ t ∈ p.tags, t.name ∈ f ∧ ∃ a ∈ p.assocRows,
            a.calibration_id = c.id ∧ a.tag_id = t.id ∧ a.archived_at = none) := by
  constructor
  · intro cid
    simp only [inMemListByFilters, mem_sortByTimestampDesc, List.mem_map,
      List.mem_filter, Bool.and_eq_true, List.all_eq_true]
    constructor
    · rintro ⟨c', ⟨c, ⟨hc, hbase, hall⟩, rfl⟩, hid⟩
      exact ⟨c, hc, hid, hbase, fun n hn => by simpa using hall n hn⟩
    · rintro ⟨c, hc, hid, hbase, hall⟩
      exact ⟨{ c with tags := inMemActiveTags s c.id },
        ⟨c, ⟨hc, hbase, fun n hn => by simpa using hall n hn⟩, rfl⟩, hid⟩
  · intro cid
    unfold pgListByFilters
    simp only
    rw [if_neg (by simpa [List.isEmpty_iff] using hf)]
    by_cases htids : ((p.tags.filter (fun t => f.contains t.name)).map (fun t => t.id)).isEmpty
    · rw [if_pos htids]
      rw [List.isEmpty_iff] at htids
      simp only [List.not_mem_nil, false_and, exists_false, false_iff]
      rintro ⟨c, hc, hid, hbase, t, ht, htf, a, ha, hrest⟩
      have : t.id ∈ (p.tags.filter (fun t => f.contains t.name)).map (fun t => t.id) :=
        (mem_tagIdsOfNames p.tags f t.id).mpr ⟨t, ht, htf, rfl⟩
      rw [htids] at this
      simp at this
    · rw [if_neg htids]
      simp only [mem_sortByTimestampDesc, List.mem_filter,
        Bool.and_eq_true, List.any_eq_true]
      constructor
      · rintro ⟨c, ⟨hc, hbase, a, ha, hcond⟩, hid⟩
        simp only [Bool.and_eq_true, beq_iff_eq] at hcond
        obtain ⟨⟨hacid, hatid⟩, harch⟩ := hcond
        obtain ⟨t, ht, htf, htid⟩ := (mem_tagIdsOfNames p.tags f a.tag_id).mp
          (by simpa using hatid)
        refine ⟨c, hc, hid, hbase, t, ht, htf, a, ha, hacid, htid.symm, ?_⟩
        simpa using harch
      · rintro ⟨c, hc, hid, hbase, t, ht, htf, a, ha, hacid, hatid, harch⟩
        refine ⟨c, ⟨hc, hbase, a, ha, ?_⟩, hid⟩
        simp only [Bool.and_eq_true, beq_iff_eq]
        refine ⟨⟨hacid, ?_⟩, by simp [harch]⟩
        simpa using (mem_tagIdsOfNames p.tags f a.tag_id).mpr ⟨t, ht, htf, hatid.symm⟩

/-- C2 (witness): the amended theorem applied to the concrete stores of
the counterexample with the single-name filter `["A"]`. -/
theorem list_by_filters_tag_semantics_witness :
    (["A"] : List String) ≠ []
    ∧ ((∀ cid, (∃ c ∈ inMemListByFilters cexC2Mem none none none (some ["A"]), c.id = cid) ↔
      ∃ c ∈ cexC2Mem.calibrations, c.id = cid ∧ calBaseMatch none none none c = true
        ∧ ∀ n ∈ ["A"], n ∈ inMemActiveTagNames cexC2Mem c.id)
    ∧ (∀ cid, (∃ c ∈ pgListByFilters cexC2Pg none none none (some ["A"]), c.id = cid) ↔
      ∃ c ∈ cexC2Pg.calibrations, c.id = cid ∧ calBaseMatch none none none c = true
        ∧ ∃ t ∈ cexC2Pg.tags, t.name ∈ ["A"] ∧ ∃ a ∈ cexC2Pg.assocRows,
            a.calibration_id = c.id ∧ a.tag_id = t.id ∧ a.archived_at = none)) :=
  ⟨by decide, list_by_filters_tag_semantics cexC2Mem cexC2Pg none none none ["A"] (by decide)⟩

/-- With `active_at` omitted, the in-memory repository returns all stored
associations of the calibration, active and archived alike. -/
theorem inMemGetTagAssociations_none (s : InMemCalState) (cid : Nat) :
    inMemGetTagAssociations s cid none = s.assocsFor cid := by
  unfold inMemGetTagAssociations inMemActiveSkip
  simp

/-- Attach-tag, branch with an existing active association: it is returned
and the state is untouched. -/
theorem addTag_found (s : SysState) (cid tid now fresh : Nat)
    (a : CalibrationTagAssociation)
    (hcal : (s.cal.calLookup cid).isSome = true)
    (htag : (mockGetTagById s.tag tid).isSome = true)
    (hfind : (inMemGetTagAssociations s.cal cid none).find?
        (fun b => b.tag_id == tid && ! b.is_archived) = some a) :
    addTagToCalibration s cid tid now fresh = (.ok ⟨a⟩, s) := by
  obtain ⟨c, hc⟩ := Option.isSome_iff_exists.mp hcal
  obtain ⟨t, ht⟩ := Option.isSome_iff_exists.mp htag
  unfold addTagToCalibration
  rw [hc, ht]
  simp only [hfind]

/-- Attach-tag, branch without an active association: exactly one new
association (built from the constructor defaults) is appended to the
stored associations of the calibration; nothing else changes. -/
theorem addTag_notFound (s : SysState) (cid tid now fresh : Nat)
    (hcal : (s.cal.calLookup cid).isSome = true)
    (htag : (mockGetTagById s.tag tid).isSome = true)
    (hfresh : ∀ b ∈ s.cal.assocsFor cid, b.id ≠ fresh)
    (hfind : (inMemGetTagAssociations s.cal cid none).find?
        (fun b => b.tag_id == tid && ! b.is_archived) = none) :
    addTagToCalibration s cid tid now fresh =
      (.ok ⟨mkCalibrationTagAssociation cid tid now fresh⟩,
       { cal := s.cal.setAssocs cid
           (s.cal.assocsFor cid ++ [mkCalibrationTagAssociation cid tid now fresh]),
         tag := s.tag }) := by
  obtain ⟨c, hc⟩ := Option.isSome_iff_exists.mp hcal
  obtain ⟨t, ht⟩ := Option.isSome_iff_exists.mp htag
  unfold addTagToCalibration
  rw [hc, ht]
  simp only [hfind]
  have hc' : s.cal.calibrations.find? (fun c => c.id == cid) = some c := hc
  have hpc := List.find?_some hc'
  have hany : s.cal.calibrations.any (fun c => c.id == cid) = true :=
    List.any_eq_true.mpr ⟨c, List.mem_of_find?_eq_some hc', hpc⟩
  unfold inMemAddTags
  rw [hany]
  simp only [Bool.not_true, Bool.false_eq_true, if_false, List.isEmpty_cons, Bool.false_eq_true,
    if_false]
  have hmatch : ([mkCalibrationTagAssociation cid tid now fresh].filter
      (fun a => a.calibration_id == cid)) = [mkCalibrationTagAssociation cid tid now fresh] := by
    simp [mkCalibrationTagAssociation]
  rw [hmatch]
  simp only [List.foldl_cons, List.foldl_nil]
  have hnoid : ((s.cal.assocsFor cid).any
      (fun b => b.id == (mkCalibrationTagAssociation cid tid now fresh).id)) = false := by
    rw [List.any_eq_false]
    intro b hb
    simpa [mkCalibrationTagAssociation] using hfresh b hb
  unfold InMemCalState.insertAssoc
  rw [hnoid]
  simp

/-- C4: if an active association already exists for the (calibration, tag)
pair, attach-tag returns it and persists nothing; otherwise (including
when only archived associations exist) exactly one new association record
is appended; and attaching twice in a row leaves the state of the first
attach unchanged. -/
theorem attach_tag_idempotent (s : SysState) (cid tid now fresh : Nat)
    (hcal : (s.cal.calLookup cid).isSome = true)
    (htag : (mockGetTagById s.tag tid).isSome = true)
    (hfresh : ∀ b ∈ s.cal.assocsFor cid, b.id ≠ fresh) :
    (∀ a, (inMemGetTagAssociations s.cal cid none).find?
        (fun b => b.tag_id == tid && ! b.is_archived) = some a →
      addTagToCalibration s cid tid now fresh = (.ok ⟨a⟩, s))
    ∧ ((inMemGetTagAssociations s.cal cid none).find?
        (fun b => b.tag_id == tid && ! b.is_archived) = none →
      (addTagToCalibration s cid tid now fresh).1 =
          .ok ⟨mkCalibrationTagAssociation cid tid now fresh⟩
        ∧ (addTagToCalibration s cid tid now fresh).2.cal.assocsFor cid =
            s.cal.assocsFor cid ++ [mkCalibrationTagAssociation cid tid now fresh]
        ∧ (addTagToCalibration s cid tid now fresh).2.cal.calibrations = s.cal.calibrations
        ∧ (addTagToCalibration s cid tid now fresh).2.tag = s.tag)
    ∧ (∀ now2 fresh2,
        (addTagToCalibration (addTagToCalibration s cid tid now fresh).2
            cid tid now2 fresh2).2 =
          (addTagToCalibration s cid tid now fresh).2) := by
  refine ⟨fun a ha => addTag_found s cid tid now fresh a hcal htag ha, fun hn => ?_, ?_⟩
  · rw [addTag_notFound s cid tid now fresh hcal htag hfresh hn]
    refine ⟨rfl, ?_, (setAssocs_calibrations s.cal cid _).1, rfl⟩
    exact setAssocs_assocsFor s.cal cid _
  · intro now2 fresh2
    cases hfind : (inMemGetTagAssociations s.cal cid none).find?
        (fun b => b.tag_id == tid && ! b.is_archived) with
    | some a =>
      rw [addTag_found s cid tid now fresh a hcal htag hfind]
      rw [addTag_found s cid tid now2 fresh2 a hcal htag hfind]
    | none =>
      rw [addTag_notFound s cid tid now fresh hcal htag hfresh hfind]
      set s' : SysState :=
        { cal := s.cal.setAssocs cid
            (s.cal.assocsFor cid ++ [mkCalibrationTagAssociation cid tid now fresh]),
          tag := s.tag } with hs'
      have hcal' : (s'.cal.calLookup cid).isSome = true := by
        rw [hs']
        unfold InMemCalState.calLookup
        rw [(setAssocs_calibrations s.cal cid _).1]
        exact hcal
      have htag' : (mockGetTagById s'.tag tid).isSome = true := htag
      have hassoc' : s'.cal.assocsFor cid =
          s.cal.assocsFor cid ++ [mkCalibrationTagAssociation cid tid now fresh] :=
        setAssocs_assocsFor s.cal cid _
      have hfind' : (inMemGetTagAssociations s'.cal cid none).find?
          (fun b => b.tag_id == tid && ! b.is_archived) =
            some (mkCalibrationTagAssociation cid tid now fresh) := by
        rw [inMemGetTagAssociations_none, hassoc', List.find?_append]
        rw [inMemGetTagAssociations_none] at hfind
        rw [hfind]
        simp [mkCalibrationTagAssociation, CalibrationTagAssociation.is_archived]
      rw [addTag_found s' cid tid now2 fresh2 _ hcal' htag' hfind']

/-- C4 (witness): in a state where the only association of the pair is
archived, attach-tag appends one fresh association. -/
theorem attach_tag_idempotent_witness :
    (sysC4.cal.calLookup 1).isSome = true
    ∧ (mockGetTagById sysC4.tag 2).isSome = true
    ∧ (∀ b ∈ sysC4.cal.assocsFor 1, b.id ≠ 77)
    ∧ ((inMemGetTagAssociations sysC4.cal 1 none).find?
        (fun b => b.tag_id == 2 && ! b.is_archived) = none →
      (addTagToCalibration sysC4 1 2 6 77).1 = .ok ⟨mkCalibrationTagAssociation 1 2 6 77⟩
        ∧ (addTagToCalibration sysC4 1 2 6 77).2.cal.assocsFor 1 =
            sysC4.cal.assocsFor 1 ++ [mkCalibrationTagAssociation 1 2 6 77]
        ∧ (addTagToCalibration sysC4 1 2 6 77).2.cal.calibrations = sysC4.cal.calibrations
        ∧ (addTagToCalibration sysC4 1 2 6 77).2.tag = sysC4.tag) :=
  ⟨by decide, by decide, by decide,
   (attach_tag_idempotent sysC4 1 2 6 77 (by decide) (by decide) (by decide)).2.1⟩

/-- An association found under key `cid` implies the outer dict has that
key. -/
theorem assocsFor_mem_key (s : InMemCalState) (cid : Nat)
    (a : CalibrationTagAssociation) (ha : a ∈ s.assocsFor cid) :
    s.associations.any (fun p => p.1 == cid) = true := by
  unfold InMemCalState.assocsFor at ha
  cases hf : s.associations.find? (fun p => p.1 == cid) with
  | none => rw [hf] at ha; simp at ha
  | some p =>
    have hp := List.find?_some hf
    exact List.any_eq_true.mpr ⟨p, List.mem_of_find?_eq_some hf, hp⟩

/-- An option whose `isSome` is `false` is `none`. -/
theorem isSome_false_eq_none {α : Type} (o : Option α) (h : o.isSome = false) : o = none := by
  cases o with
  | none => rfl
  | some _ => simp at h

/-- The detach-tag search finds nothing exactly when no stored association
of the pair has `archived_at = None`. -/
theorem removeFind_none_iff (s : InMemCalState) (cid tid now : Nat) :
    ((inMemGetTagAssociations s cid (some now)).find?
      (fun b => b.tag_id == tid && ! b.is_archived) = none) ↔
    ¬ ∃ a ∈ s.assocsFor cid, a.tag_id = tid ∧ a.archived_at = none := by
  rw [List.find?_eq_none]
  constructor
  · rintro h ⟨a, ha, htid, harch⟩
    refine h a ?_ ?_
    · rw [inMemGetTagAssociations, List.mem_filter]
      exact ⟨ha, by simp [inMemActiveSkip, harch]⟩
    · simp [htid, CalibrationTagAssociation.is_archived, harch]
  · intro h a ha hp
    rw [inMemGetTagAssociations, List.mem_filter] at ha
    simp only [Bool.and_eq_true, beq_iff_eq, Bool.not_eq_true'] at hp
    rcases hp with ⟨htid, harch⟩
    rw [CalibrationTagAssociation.is_archived] at harch
    exact h ⟨a, ha.1, htid, isSome_false_eq_none _ harch⟩

/-- Detach-tag, branch without an active association: the error is
`AssociationNotFoundError` and the state is untouched. -/
theorem removeTag_notFound (s : SysState) (cid tid now : Nat)
    (hcal : (s.cal.calLookup cid).isSome = true)
    (htag : (mockGetTagById s.tag tid).isSome = true)
    (hfind : (inMemGetTagAssociations s.cal cid (some now)).find?
        (fun b => b.tag_id == tid && ! b.is_archived) = none) :
    removeTagFromCalibration s cid tid now = (.error .associationNotFoundError, s) := by
  obtain ⟨c, hc⟩ := Option.isSome_iff_exists.mp hcal
  obtain ⟨t, ht⟩ := Option.isSome_iff_exists.mp htag
  unfold removeTagFromCalibration
  rw [hc, ht]
  simp only [hfind]

/-- Detach-tag, branch with an active association: its `archived_at` is
set to the call instant and the update is persisted through
`update_tag_association`. -/
theorem removeTag_found (s : SysState) (cid tid now : Nat)
    (a : CalibrationTagAssociation)
    (hcal : (s.cal.calLookup cid).isSome = true)
    (htag : (mockGetTagById s.tag tid).isSome = true)
    (hwf : ∀ b ∈ s.cal.assocsFor cid, b.calibration_id = cid)
    (hfind : (inMemGetTagAssociations s.cal cid (some now)).find?
        (fun b => b.tag_id == tid && ! b.is_archived) = some a) :
    removeTagFromCalibration s cid tid now =
      (.ok ⟨{ a with archived_at := some now }⟩,
       { cal := s.cal.setAssocs cid
           (InMemCalState.insertAssoc (s.cal.assocsFor cid)
             { a with archived_at := some now }),
         tag := s.tag }) := by
  obtain ⟨c, hc⟩ := Option.isSome_iff_exists.mp hcal
  obtain ⟨t, ht⟩ := Option.isSome_iff_exists.mp htag
  have hamem : a ∈ s.cal.assocsFor cid := by
    have := List.mem_of_find?_eq_some hfind
    rw [inMemGetTagAssociations, List.mem_filter] at this
    exact this.1
  have hp := List.find?_some hfind
  simp only [Bool.and_eq_true, Bool.not_eq_true'] at hp
  have harch : a.archived_at = none := by
    have h2 := hp.2
    rw [CalibrationTagAssociation.is_archived] at h2
    exact isSome_false_eq_none _ h2
  have hacid : a.calibration_id = cid := hwf a hamem
  have harchive : a.archive now = { a with archived_at := some now } := by
    rw [CalibrationTagAssociation.archive, if_neg]
    rw [CalibrationTagAssociation.is_archived, harch]
    simp
  unfold removeTagFromCalibration
  rw [hc, ht]
  simp only [hfind, harchive]
  have hkey : s.cal.associations.any
      (fun p => p.1 == ({ a with archived_at := some now } :
        CalibrationTagAssociation).calibration_id) = true := by
    simp only [hacid]
    exact assocsFor_mem_key s.cal cid a hamem
  have hinner : (s.cal.assocsFor ({ a with archived_at := some now } :
      CalibrationTagAssociation).calibration_id).any
      (fun b => b.id == ({ a with archived_at := some now } :
        CalibrationTagAssociation).id) = true := by
    simp only [hacid]
    exact List.any_eq_true.mpr ⟨a, hamem, by simp⟩
  unfold inMemUpdateTagAssociation
  rw [hkey, hinner]
  simp only [Bool.and_self, if_true]
  simp only [hacid]

/-- C5: detach-tag fails with `AssociationNotFoundError` exactly when no
stored association of the (calibration, tag) pair is active (has
`archived_at = None`) at the call instant — an already-archived
association does not count — and in that case the store is unchanged;
otherwise the found active association gets `archived_at = now` and the
update is persisted via `update_tag_association`. -/
theorem detach_tag_spec (s : SysState) (cid tid now : Nat)
    (hcal : (s.cal.calLookup cid).isSome = true)
    (htag : (mockGetTagById s.tag tid).isSome = true)
    (hwf : ∀ b ∈ s.cal.assocsFor cid, b.calibration_id = cid) :
    ((removeTagFromCalibration s cid tid now).1 = .error .associationNotFoundError ↔
      ¬ ∃ a ∈ s.cal.assocsFor cid, a.tag_id = tid ∧ a.archived_at = none)
    ∧ ((¬ ∃ a ∈ s.cal.assocsFor cid, a.tag_id = tid ∧ a.archived_at = none) →
        removeTagFromCalibration s cid tid now = (.error .associationNotFoundError, s))
    ∧ (∀ a, (inMemGetTagAssociations s.cal cid (some now)).find?
          (fun b => b.tag_id == tid && ! b.is_archived) = some a →
        removeTagFromCalibration s cid tid now =
          (.ok ⟨{ a with archived_at := some now }⟩,
           { cal := s.cal.setAssocs cid
               (InMemCalState.insertAssoc (s.cal.assocsFor cid)
                 { a with archived_at := some now }),
             tag := s.tag })) := by
  refine ⟨?_, fun hno => removeTag_notFound s cid tid now hcal htag
      ((removeFind_none_iff s.cal cid tid now).mpr hno),
    fun a ha => removeTag_found s cid tid now a hcal htag hwf ha⟩
  constructor
  · intro herr
    cases hfind : (inMemGetTagAssociations s.cal cid (some now)).find?
        (fun b => b.tag_id == tid && ! b.is_archived) with
    | none => exact (removeFind_none_iff s.cal cid tid now).mp hfind
    | some a =>
      rw [removeTag_found s cid tid now a hcal htag hwf hfind] at herr
      simp at herr
  · intro hno
    rw [removeTag_notFound s cid tid now hcal htag
      ((removeFind_none_iff s.cal cid tid now).mpr hno)]

/-- C5 (witness): in a state with one active association of the pair, the
error-iff of the detach-tag theorem holds at the concrete store. -/
theorem detach_tag_spec_witness :
    (sysC5.cal.calLookup 1).isSome = true
    ∧ (mockGetTagById sysC5.tag 2).isSome = true
    ∧ (∀ b ∈ sysC5.cal.assocsFor 1, b.calibration_id = 1)
    ∧ ((removeTagFromCalibration sysC5 1 2 6).1 = .error .associationNotFoundError ↔
        ¬ ∃ a ∈ sysC5.cal.assocsFor 1, a.tag_id = 2 ∧ a.archived_at = none) :=
  ⟨by decide, by decide, by decide,
   (detach_tag_spec sysC5 1 2 6 (by decide) (by decide) (by decide)).1⟩

/-- The ids found by `MockTagRepository.get_by_ids` are exactly the
requested ids present in the store. -/
theorem mem_mockFoundIds (st : MockTagState) (ids : List Nat) (x : Nat) :
    x ∈ (mockGetTagsByIds st ids).map (fun t => t.id) ↔
      x ∈ ids ∧ st.tagsById.any (fun t => t.id == x) = true := by
  unfold mockGetTagsByIds
  rw [List.mem_map]
  constructor
  · rintro ⟨t, htmem, rfl⟩
    rcases List.mem_filterMap.mp htmem with ⟨i, hi, hfind⟩
    have hp := List.find?_some hfind
    have hti : t.id = i := by simpa using hp
    refine ⟨hti ▸ hi, List.any_eq_true.mpr ⟨t, List.mem_of_find?_eq_some hfind, by simp⟩⟩
  · rintro ⟨hx, hany⟩
    have hsome : (st.tagsById.find? (fun t => t.id == x)).isSome = true := by
      rw [List.find?_isSome]
      exact List.any_eq_true.mp hany
    obtain ⟨t, hfind⟩ := Option.isSome_iff_exists.mp hsome
    have hp := List.find?_some hfind
    exact ⟨t, List.mem_filterMap.mpr ⟨x, hx, hfind⟩, by simpa using hp⟩

/-- The already-active tag ids computed by the bulk-attach use case are the
tag ids with a stored unarchived association. -/
theorem mem_bulkActiveIds (s : InMemCalState) (cid x : Nat) :
    x ∈ ((inMemGetTagAssociations s cid none).filter
        (fun a => ! a.is_archived)).map (fun a => a.tag_id) ↔
      ∃ a ∈ s.assocsFor cid, a.archived_at = none ∧ a.tag_id = x := by
  rw [inMemGetTagAssociations_none, List.mem_map]
  constructor
  · rintro ⟨a, hmem, rfl⟩
    rcases List.mem_filter.mp hmem with ⟨ha, hb⟩
    refine ⟨a, ha, ?_, rfl⟩
    rw [Bool.not_eq_true', CalibrationTagAssociation.is_archived] at hb
    exact isSome_false_eq_none _ hb
  · rintro ⟨a, ha, harch, rfl⟩
    exact ⟨a, List.mem_filter.mpr ⟨ha, by
      simp [CalibrationTagAssociation.is_archived, harch]⟩, rfl⟩

/-- A non-empty id list has a non-empty deduplication. -/
theorem dedup_isEmpty_false (tagIds : List Nat) (hne : tagIds ≠ []) :
    tagIds.dedup.isEmpty = false := by
  cases tagIds with
  | nil => exact absurd rfl hne
  | cons y ys =>
    have hy : y ∈ (y :: ys).dedup := List.mem_dedup.mpr (List.mem_cons_self y ys)
    simp [List.isEmpty_iff, List.ne_nil_of_mem hy]

/-- `List.contains` agrees with membership for ids. -/
theorem contains_eq_true_iff_mem (l : List Nat) (x : Nat) :
    l.contains x = true ↔ x ∈ l := by
  simp

/-- Bulk-attach, branch with missing tag ids: one `TagNotFoundError`
carrying exactly the requested-but-unknown ids; the state is untouched. -/
theorem bulkAdd_missing_eq (s : SysState) (cid : Nat) (tagIds : List Nat)
    (now : Nat) (fresh : Nat → Nat)
    (hne : tagIds ≠ [])
    (hcal : (s.cal.calLookup cid).isSome = true)
    (hmiss : (tagIds.dedup.filter (fun x =>
        ! ((mockGetTagsByIds s.tag tagIds.dedup).map (fun t => t.id)).contains x)).isEmpty
      = false) :
    addBulkTagsToCalibration s cid tagIds now fresh =
      (.error (.tagNotFoundError (tagIds.dedup.filter (fun x =>
        ! ((mockGetTagsByIds s.tag tagIds.dedup).map (fun t => t.id)).contains x))), s) := by
  obtain ⟨c, hc⟩ := Option.isSome_iff_exists.mp hcal
  simp only [addBulkTagsToCalibration, dedup_isEmpty_false tagIds hne, Bool.false_eq_true,
    if_false, hc, hmiss, Bool.not_false, if_true]

/-- Bulk-attach, branch with every tag id known: the deduplicated ids are
split into already-active (skipped) and new; the new ones are persisted in
one `add_tags` batch when non-empty. -/
theorem bulkAdd_found_eq (s : SysState) (cid : Nat) (tagIds : List Nat)
    (now : Nat) (fresh : Nat → Nat)
    (hne : tagIds ≠ [])
    (hcal : (s.cal.calLookup cid).isSome = true)
    (hfound : (tagIds.dedup.filter (fun x =>
        ! ((mockGetTagsByIds s.tag tagIds.dedup).map (fun t => t.id)).contains x)) = []) :
    addBulkTagsToCalibration s cid tagIds now fresh =
      (let activeIds := ((inMemGetTagAssociations s.cal cid none).filter
          (fun a => ! a.is_archived)).map (fun a => a.tag_id)
       let newIds := tagIds.dedup.filter (fun x => ! activeIds.contains x)
       let skipped := tagIds.dedup.filter (fun x => activeIds.contains x)
       if newIds.isEmpty then (.ok ⟨[], skipped⟩, s)
       else
         (.ok ⟨newIds.map (fun t => mkCalibrationTagAssociation cid t now (fresh t)), skipped⟩,
          { cal := (inMemAddTags s.cal cid
              (newIds.map (fun t => mkCalibrationTagAssociation cid t now (fresh t)))).2,
            tag := s.tag })) := by
  obtain ⟨c, hc⟩ := Option.isSome_iff_exists.mp hcal
  simp only [addBulkTagsToCalibration, dedup_isEmpty_false tagIds hne, Bool.false_eq_true,
    if_false, hc, hfound, List.isEmpty_nil, Bool.not_true]

/-- C3: bulk-attach on an existing calibration with a non-empty id list:
when some requested id is unknown, the call fails with a single
`TagNotFoundError` listing exactly all missing ids and the state is
untouched; when all ids exist, the call succeeds and the deduplicated ids
are partitioned into `skipped` (already actively associated — exactly the
requested ids with a stored unarchived association) and `added` (one fresh
association per remaining id, with the constructor defaults), the two
being disjoint and together covering the request; the new associations are
persisted through one `add_tags` batch, and no batch call happens when
nothing is new. -/
theorem bulk_attach_spec (s : SysState) (cid : Nat) (tagIds : List Nat)
    (now : Nat) (fresh : Nat → Nat)
    (hne : tagIds ≠ [])
    (hcal : (s.cal.calLookup cid).isSome = true) :
    ((∃ x ∈ tagIds, s.tag.tagsById.any (fun t => t.id == x) = false) →
      ∃ m, addBulkTagsToCalibration s cid tagIds now fresh =
          (.error (.tagNotFoundError m), s)
        ∧ ∀ x, x ∈ m ↔ x ∈ tagIds ∧ s.tag.tagsById.any (fun t => t.id == x) = false)
    ∧ ((∀ x ∈ tagIds, s.tag.tagsById.any (fun t => t.id == x) = true) →
      ∃ added skipped,
        (addBulkTagsToCalibration s cid tagIds now fresh).1 = .ok ⟨added, skipped⟩
        ∧ (∀ x, x ∈ skipped ↔ x ∈ tagIds ∧
            ∃ a ∈ s.cal.assocsFor cid, a.archived_at = none ∧ a.tag_id = x)
        ∧ (∀ x, (∃ b ∈ added, b.tag_id = x) ↔ x ∈ tagIds ∧
            ¬ ∃ a ∈ s.cal.assocsFor cid, a.archived_at = none ∧ a.tag_id = x)
        ∧ (∀ x, ¬ (x ∈ skipped ∧ ∃ b ∈ added, b.tag_id = x))
        ∧ (added.map (fun b => b.tag_id)).Nodup
        ∧ (∀ b ∈ added, b.calibration_id = cid ∧ b.archived_at = none ∧ b.created_at = now)
        ∧ (added = [] → (addBulkTagsToCalibration s cid tagIds now fresh).2 = s)
        ∧ (added ≠ [] → (addBulkTagsToCalibration s cid tagIds now fresh).2 =
            { cal := (inMemAddTags s.cal cid added).2, tag := s.tag })) := by
  constructor
  · rintro ⟨x, hx, hnone⟩
    have hxd : x ∈ tagIds.dedup := List.mem_dedup.mpr hx
    have hxNotFound : x ∉ (mockGetTagsByIds s.tag tagIds.dedup).map (fun t => t.id) := by
      intro hmem
      have h2 := ((mem_mockFoundIds s.tag tagIds.dedup x).mp hmem).2
      rw [hnone] at h2
      simp at h2
    have hxnot : x ∈ tagIds.dedup.filter (fun y =>
        ! ((mockGetTagsByIds s.tag tagIds.dedup).map (fun t => t.id)).contains y) := by
      rw [List.mem_filter]
      refine ⟨hxd, ?_⟩
      rw [Bool.not_eq_true', Bool.eq_false_iff]
      intro hcont
      exact hxNotFound ((contains_eq_true_iff_mem _ x).mp hcont)
    have hmiss : (tagIds.dedup.filter (fun y =>
        ! ((mockGetTagsByIds s.tag tagIds.dedup).map (fun t => t.id)).contains y)).isEmpty
        = false := by
      rw [Bool.eq_false_iff]
      intro hEmp
      rw [List.isEmpty_iff] at hEmp
      rw [hEmp] at hxnot
      simp at hxnot
    refine ⟨_, bulkAdd_missing_eq s cid tagIds now fresh hne hcal hmiss, fun y => ?_⟩
    rw [List.mem_filter]
    constructor
    · rintro ⟨hyd, hyc⟩
      refine ⟨List.mem_dedup.mp hyd, ?_⟩
      rw [Bool.not_eq_true'] at hyc
      rw [Bool.eq_false_iff]
      intro hany
      have hcontTrue := (contains_eq_true_iff_mem _ y).mpr
        ((mem_mockFoundIds s.tag tagIds.dedup y).mpr ⟨hyd, hany⟩)
      rw [hyc] at hcontTrue
      simp at hcontTrue
    · rintro ⟨hy, hnone2⟩
      refine ⟨List.mem_dedup.mpr hy, ?_⟩
      rw [Bool.not_eq_true', Bool.eq_false_iff]
      intro hcont
      have h2 := ((mem_mockFoundIds s.tag tagIds.dedup y).mp
        ((contains_eq_true_iff_mem _ y).mp hcont)).2
      rw [hnone2] at h2
      simp at h2
  · intro hall
    have hfound : (tagIds.dedup.filter (fun x =>
        ! ((mockGetTagsByIds s.tag tagIds.dedup).map (fun t => t.id)).contains x)) = [] := by
      rw [List.filter_eq_nil_iff]
      intro x hxd
      have hx : x ∈ tagIds := List.mem_dedup.mp hxd
      have hmem : x ∈ (mockGetTagsByIds s.tag tagIds.dedup).map (fun t => t.id) :=
        (mem_mockFoundIds s.tag tagIds.dedup x).mpr ⟨hxd, hall x hx⟩
      simp [hmem]
    have heq := bulkAdd_found_eq s cid tagIds now fresh hne hcal hfound
    simp only at heq
    set activeIds := ((inMemGetTagAssociations s.cal cid none).filter
        (fun a => ! a.is_archived)).map (fun a => a.tag_id) with hact
    set newIds := tagIds.dedup.filter (fun x => ! activeIds.contains x) with hnew
    set skipped := tagIds.dedup.filter (fun x => activeIds.contains x) with hskip
    have hactMem : ∀ x, activeIds.contains x = true ↔
        ∃ a ∈ s.cal.assocsFor cid, a.archived_at = none ∧ a.tag_id = x := by
      intro x
      rw [contains_eq_true_iff_mem, hact]
      exact mem_bulkActiveIds s.cal cid x
    have hskipChar : ∀ x, x ∈ skipped ↔ x ∈ tagIds ∧
        ∃ a ∈ s.cal.assocsFor cid, a.archived_at = none ∧ a.tag_id = x := by
      intro x
      rw [hskip, List.mem_filter, List.mem_dedup]
      exact and_congr_right (fun _ => hactMem x)
    have hnewChar : ∀ x, x ∈ newIds ↔ x ∈ tagIds ∧
        ¬ ∃ a ∈ s.cal.assocsFor cid, a.archived_at = none ∧ a.tag_id = x := by
      intro x
      rw [hnew, List.mem_filter, List.mem_dedup]
      refine and_congr_right (fun _ => ?_)
      rw [Bool.not_eq_true', Bool.eq_false_iff]
      exact not_congr (hactMem x)
    by_cases hni : newIds.isEmpty
    · rw [if_pos hni] at heq
      refine ⟨[], skipped, by rw [heq], hskipChar, ?_, ?_, by simp, by simp,
        fun _ => by rw [heq], fun h => absurd rfl h⟩
      · intro x
        simp only [List.not_mem_nil, false_and, exists_false, false_iff]
        rintro ⟨hx, hnex⟩
        have hmemNew : x ∈ newIds := (hnewChar x).mpr ⟨hx, hnex⟩
        rw [List.isEmpty_iff.mp hni] at hmemNew
        simp at hmemNew
      · rintro x ⟨_, b, hb, _⟩
        simp at hb
    · rw [if_neg hni] at heq
      refine ⟨newIds.map (fun t => mkCalibrationTagAssociation cid t now (fresh t)), skipped,
        by rw [heq], hskipChar, ?_, ?_, ?_, ?_, ?_, fun _ => by rw [heq]⟩
      · intro x
        rw [← hnewChar x]
        constructor
        · rintro ⟨b, hb, rfl⟩
          rcases List.mem_map.mp hb with ⟨t, ht, rfl⟩
          simpa [mkCalibrationTagAssociation] using ht
        · intro hx
          exact ⟨mkCalibrationTagAssociation cid x now (fresh x),
            List.mem_map.mpr ⟨x, hx, rfl⟩, rfl⟩
      · rintro x ⟨hsk, b, hb, rfl⟩
        rcases List.mem_map.mp hb with ⟨t, ht, rfl⟩
        have h1 := (hskipChar _).mp hsk
        have h2 := (hnewChar _).mp (by simpa [mkCalibrationTagAssociation] using ht)
        exact h2.2 h1.2
      · have hmm : (newIds.map (fun t => mkCalibrationTagAssociation cid t now (fresh t))).map
            (fun b => b.tag_id) = newIds := by
          rw [List.map_map]
          have : ((fun (b : CalibrationTagAssociation) => b.tag_id) ∘
              fun t => mkCalibrationTagAssociation cid t now (fresh t)) = fun t => t := by
            funext t
            rfl
          rw [this, List.map_id']
        rw [hmm, hnew]
        exact List.Nodup.filter _ (List.nodup_dedup tagIds)
      · rintro b hb
        rcases List.mem_map.mp hb with ⟨t, ht, rfl⟩
        simp [mkCalibrationTagAssociation]
      · intro hmap
        rw [List.map_eq_nil_iff] at hmap
        rw [hmap] at hni
        simp at hni

/-- C3 (witness): bulk-attach on the concrete store where tag 2 is active
and tag 3 is new, requesting `[2, 3]`. -/
theorem bulk_attach_spec_witness :
    ([2, 3] : List Nat) ≠ []
    ∧ (sysC3.cal.calLookup 1).isSome = true
    ∧ ((∀ x ∈ ([2, 3] : List Nat), sysC3.tag.tagsById.any (fun t => t.id == x) = true) →
      ∃ added skipped,
        (addBulkTagsToCalibration sysC3 1 [2, 3] 6 (fun t => 40 + t)).1 = .ok ⟨added, skipped⟩
        ∧ (∀ x, x ∈ skipped ↔ x ∈ ([2, 3] : List Nat) ∧
            ∃ a ∈ sysC3.cal.assocsFor 1, a.archived_at = none ∧ a.tag_id = x)
        ∧ (∀ x, (∃ b ∈ added, b.tag_id = x) ↔ x ∈ ([2, 3] : List Nat) ∧
            ¬ ∃ a ∈ sysC3.cal.assocsFor 1, a.archived_at = none ∧ a.tag_id = x)
        ∧ (∀ x, ¬ (x ∈ skipped ∧ ∃ b ∈ added, b.tag_id = x))
        ∧ (added.map (fun b => b.tag_id)).Nodup
        ∧ (∀ b ∈ added, b.calibration_id = 1 ∧ b.archived_at = none ∧ b.created_at = 6)
        ∧ (added = [] → (addBulkTagsToCalibration sysC3 1 [2, 3] 6 (fun t => 40 + t)).2 = sysC3)
        ∧ (added ≠ [] → (addBulkTagsToCalibration sysC3 1 [2, 3] 6 (fun t => 40 + t)).2 =
            { cal := (inMemAddTags sysC3.cal 1 added).2, tag := sysC3.tag })) :=
  ⟨by decide, by decide,
   (bulk_attach_spec sysC3 1 [2, 3] 6 (fun t => 40 + t) (by decide) (by decide)).2⟩
